import Mathlib

/-!
Verification of the miyavkify planting-recommendation application
(`src/app.py`) against its design specification.

The Python source is shallowly embedded below.  Python numbers (ints and
floats) are modelled as exact rationals `ℚ`; `int(x)` is truncation toward
zero; `round(x, 1)` is round-half-to-even at one decimal.  The plant catalog
`plant_database.json` is not part of the source tree, so every function that
reads `PLANT_DB` is parametrised by a catalog value; the spec's data-model
invariants on the catalog (positive cost, positive maturity) appear as
explicit hypotheses where a theorem needs them.
-/

namespace Miyavkify

/-- Python `int(x)` applied to a (real-valued) number: truncation toward zero. -/
def pyInt (q : ℚ) : ℤ := if 0 ≤ q then ⌊q⌋ else ⌈q⌉

/-- Python `round(x)`: nearest integer, ties to even. -/
def pyRoundEven (x : ℚ) : ℤ :=
  let f := ⌊x⌋
  let r := x - f
  if r < 1/2 then f
  else if 1/2 < r then f + 1
  else if f % 2 = 0 then f else f + 1

/-- Python `round(x, 1)`: round to one decimal place. -/
def pyRound1 (x : ℚ) : ℚ := (pyRoundEven (x * 10) : ℚ) / 10

/-- One catalog record `PLANT_DB["regions"][region][soil]`: each JSON key may
be absent, hence every field is an `Option`. -/
structure SoilData where
  fruit_trees : Option (List String)
  oxygen_trees : Option (List String)
  native_trees : Option (List String)
  cost_per_tree : Option ℚ
  maturity_months : Option ℚ
deriving DecidableEq

/-- The `PLANT_DB["regions"]` object: region name → soil type → record. -/
abbrev Catalog := List (String × List (String × SoilData))

/-- `PLANT_DB["regions"][region][soil]`; `Option.none` models the `KeyError`
path (region absent, or soil absent under the region). -/
def lookupSoil (db : Catalog) (region soil : String) : Option SoilData :=
  match db.lookup region with
  | Option.none => Option.none
  | some soils => soils.lookup soil

/-- The dictionary returned by `get_recommendations`. -/
structure Recommendation where
  plants : List String
  cost_per_tree : ℚ
  maturity_months : ℚ
deriving DecidableEq

/-- The loop `for p in data["oxygen_trees"]: if p not in plants: plants.append(p)`. -/
def addUnique (plants ox : List String) : List String :=
  ox.foldl (fun acc p => if p ∈ acc then acc else acc ++ [p]) plants

/-- Steps (a) and (b) of the selection in `get_recommendations`: fruit trees
first (only if requested and present), then oxygen trees deduplicated against
the list built so far. -/
def fruit_oxygen_selection (data : SoilData) (wants_fruit : Bool) : List String :=
  let plants : List String := []
  let plants := if wants_fruit && data.fruit_trees.isSome
    then plants ++ data.fruit_trees.getD [] else plants
  match data.oxygen_trees with
  | some ox => addUnique plants ox
  | Option.none => plants

/-- `get_recommendations(region, soil, wants_fruit)` from `src/app.py`. -/
def get_recommendations (db : Catalog) (region soil : String) (wants_fruit : Bool) :
    Recommendation :=
  match lookupSoil db region soil with
  | Option.none => ⟨[], 500, 24⟩
  | some data =>
    let plants := fruit_oxygen_selection data wants_fruit
    let plants := if plants.isEmpty && data.native_trees.isSome
      then data.native_trees.getD [] else plants
    ⟨plants, data.cost_per_tree.getD 500, data.maturity_months.getD 24⟩

/-- The `area_sqm` value handed to the estimators: the form field may be
missing (`None`), a string, or (when called programmatically) a number. -/
inductive AreaInput
  | noneV
  | str (s : String)
  | num (q : ℚ)

/-- Python `str.strip()` (as `float` applies to its argument): drop leading
and trailing whitespace from the character list. -/
def pyStrip (cs : List Char) : List Char :=
  ((cs.dropWhile Char.isWhitespace).reverse.dropWhile Char.isWhitespace).reverse

/-- Python `float` on a decimal string: optional surrounding whitespace,
optional sign, digits with an optional fractional part.  Exponents and the
special forms (`inf`, `nan`, hex) accepted by the builtin are irrelevant to
every claim and are not modelled; a string outside the grammar raises
`ValueError`, i.e. yields `Option.none`. -/
def parseFloat (s : String) : Option ℚ :=
  let cs := pyStrip s.data
  let signed : ℚ × List Char :=
    match cs with
    | '-' :: rest => (-1, rest)
    | '+' :: rest => (1, rest)
    | _ => (1, cs)
  let intPart := signed.2.takeWhile Char.isDigit
  let intVal : ℚ := intPart.foldl (fun n c => 10 * n + (c.toNat - '0'.toNat : ℕ)) 0
  match signed.2.dropWhile Char.isDigit with
  | [] => if intPart.isEmpty then Option.none else some (signed.1 * intVal)
  | '.' :: frac =>
    if frac.all Char.isDigit && !(intPart.isEmpty && frac.isEmpty) then
      let fracVal : ℚ := frac.foldl (fun n c => 10 * n + (c.toNat - '0'.toNat : ℕ)) 0
      some (signed.1 * (intVal + fracVal / (10 : ℚ) ^ frac.length))
    else Option.none
  | _ => Option.none

/-- `float(area_sqm)` under `try/except (TypeError, ValueError)`:
`None` raises `TypeError`, an unparseable string raises `ValueError`. -/
def pyFloat : AreaInput → Option ℚ
  | .noneV => Option.none
  | .str s => parseFloat s
  | .num q => some q

/-- `estimate_tree_count(area_sqm)`: ≈4 trees per m². -/
def estimate_tree_count (area_sqm : AreaInput) : ℤ :=
  match pyFloat area_sqm with
  | Option.none => 0
  | some area => if area ≤ 0 then 0 else pyInt (area * 4)

/-- `estimate_traditional_tree_count(area_sqm)`: ≈1.5 trees per m²
(the float literal `1.5` is exactly `3/2`). -/
def estimate_traditional_tree_count (area_sqm : AreaInput) : ℤ :=
  match pyFloat area_sqm with
  | Option.none => 0
  | some area => if area ≤ 0 then 0 else pyInt (area * (3/2))

/-- The dictionary returned by `compute_impact`. -/
structure Impact where
  co2_kg_per_year : ℤ
  oxygen_kg_per_year : ℤ
  total_cost : ℚ
deriving DecidableEq

/-- `compute_impact(tree_count, cost_per_tree)` from `src/app.py`. -/
def compute_impact (tree_count : ℤ) (cost_per_tree : ℚ) : Impact :=
  if tree_count ≤ 0 then ⟨0, 0, 0⟩
  else ⟨tree_count * 20, tree_count * 22, (tree_count : ℚ) * cost_per_tree⟩

/-- The `comparison` dictionary built by the `/assess` POST handler. -/
structure Comparison where
  trees_ratio : ℚ
  cost_ratio : ℚ
  speed_ratio : ℚ
deriving DecidableEq

/-- Everything the `/assess` POST handler computes and passes to the template. -/
structure AssessResult where
  recommendation : Recommendation
  tree_count : ℤ
  impact : Impact
  traditional_tree_count : ℤ
  traditional_cost_per_tree : ℤ
  traditional_impact : Impact
  traditional_maturity_months : ℤ
  comparison : Comparison
deriving DecidableEq

/-- The computation of the `/assess` POST branch (`assess` in `src/app.py`),
with rendering stripped.  The float literal `0.85` is modelled as the exact
rational `17/20`. -/
def assess (db : Catalog) (region soil : String) (wants_fruit : Bool)
    (area_sqm : AreaInput) : AssessResult :=
  let recd := get_recommendations db region soil wants_fruit
  let tree_count := estimate_tree_count area_sqm
  let impact := compute_impact tree_count recd.cost_per_tree
  let traditional_tree_count := estimate_traditional_tree_count area_sqm
  let traditional_cost_per_tree := pyInt (recd.cost_per_tree * (17/20))
  let traditional_impact :=
    compute_impact traditional_tree_count (traditional_cost_per_tree : ℚ)
  let traditional_maturity_months := pyInt (recd.maturity_months * 2)
  let trees_ratio := if traditional_tree_count > 0
    then pyRound1 ((tree_count : ℚ) / (traditional_tree_count : ℚ)) else 0
  let cost_ratio := if traditional_impact.total_cost > 0
    then pyRound1 (impact.total_cost / traditional_impact.total_cost) else 0
  let speed_ratio := if traditional_maturity_months > 0
    then pyRound1 ((traditional_maturity_months : ℚ) / recd.maturity_months) else 0
  ⟨recd, tree_count, impact, traditional_tree_count, traditional_cost_per_tree,
    traditional_impact, traditional_maturity_months,
    ⟨trees_ratio, cost_ratio, speed_ratio⟩⟩

/-- The spec's catalog invariant used by the comparison theorems: every record
reachable by lookup has a positive `cost_per_tree` and a positive
`maturity_months` when those keys are present. -/
def Catalog.WF (db : Catalog) : Prop :=
  ∀ region soil data, lookupSoil db region soil = some data →
    (∀ c, data.cost_per_tree = some c → 0 < c) ∧
    (∀ m, data.maturity_months = some m → 0 < m)

/-- A JSON value, as produced by `json.load` (`null` → `None`, objects →
dicts, …).  Progress-log entries are such values. -/
inductive JVal
  | null
  | bool (b : Bool)
  | num (q : ℚ)
  | str (s : String)
  | arr (items : List JVal)
  | obj (fields : List (String × JVal))

/-- Python `e.get(key)` on a parsed JSON value: `Option.none` when the key is
absent (a non-object has no such method; callers below restrict to objects). -/
def jget (v : JVal) (key : String) : Option JVal :=
  match v with
  | .obj fields => fields.lookup key
  | _ => Option.none

/-- The state of the file at `LOG_PATH`: missing, present but not valid JSON
(this also covers the empty file, which `json.load` rejects), or holding a
parsed JSON value. -/
inductive LogFile
  | missing
  | malformed (raw : String)
  | json (v : JVal)

/-- `load_progress_log()` from `src/app.py`: `[]` when the file is missing or
`json.load` raises `JSONDecodeError`, otherwise the parsed value as-is
(note: no check that the parsed value is a list). -/
def load_progress_log : LogFile → JVal
  | .missing => .arr []
  | .malformed _ => .arr []
  | .json v => v

/-- `load_progress_entries()` from `src/app.py`: like `load_progress_log` but
with the `isinstance(entries, list)` guard, so a parsed non-list becomes `[]`. -/
def load_progress_entries : LogFile → List JVal
  | .missing => []
  | .malformed _ => []
  | .json (.arr items) => items
  | .json _ => []

def ALLOWED_EXTENSIONS : List String := ["png", "jpg", "jpeg"]

/-- Python `str.lower()`, for the ASCII names at play here. -/
def pyLower (s : String) : String := String.mk (s.data.map Char.toLower)

/-- `filename.rsplit(".", 1)[1]`: the part after the last dot (callers guard
with `"." in filename`, so the suffix is well defined there). -/
def extAfterLastDot (filename : String) : String :=
  String.mk ((filename.data.reverse.takeWhile (fun c => c != '.')).reverse)

/-- `allowed_file(filename)` from `src/app.py`. -/
def allowed_file (filename : String) : Bool :=
  filename.data.contains '.' &&
    ALLOWED_EXTENSIONS.contains (pyLower (extAfterLastDot filename))

/-- Modelled from the spec: filename sanitization is the excluded upload
collaborator's job (werkzeug `secure_filename`); modelled as keeping ASCII
alphanumerics, dot, dash and underscore.  No claim depends on its exact value. -/
def secure_filename (s : String) : String :=
  String.mk (s.data.filter fun c => c.isAlphanum || c == '.' || c == '-' || c == '_')

/-- The persisted state `save_progress_entry` can touch: the log file and the
set of files in the upload folder. -/
structure LedgerState where
  log : LogFile
  uploads : List String

/-- `save_progress_entry(region, soil, area_sqm, note, file_storage)` from
`src/app.py`.  `file_storage` is `Option.none` when `request.files.get`
returned `None`; otherwise it carries `file_storage.filename` (a `FileStorage`
is falsy exactly when its filename is empty).  `timestamp` stands for
`datetime.utcnow().strftime(...)` and `username` for `session.get("username")`,
both supplied by excluded collaborators.  `Except.error` marks a raised Python
exception: `entries.append` fails when `load_progress_log` returned a parsed
non-list value (on that path the photo file has already been written; the lost
upload is not modelled, as no claim concerns it). -/
def save_progress_entry (region soil area_sqm note : JVal)
    (file_storage : Option String) (timestamp : String) (username : Option String)
    (st : LedgerState) : Except String (Option String × LedgerState) :=
  match file_storage with
  | Option.none => .ok (Option.none, st)
  | some fn =>
    if fn = "" ∨ ¬ allowed_file fn then .ok (Option.none, st)
    else
      let filename := timestamp ++ "_" ++ secure_filename fn
      let uploads := st.uploads ++ [filename]
      match load_progress_log st.log with
      | .arr entries =>
        let entry := JVal.obj
          [("region", region), ("soil", soil), ("area_sqm", area_sqm),
           ("note", note), ("filename", .str filename),
           ("created_at", .str timestamp),
           ("username", (username.map JVal.str).getD .null)]
        .ok (some filename, ⟨.json (.arr (entries ++ [entry])), uploads⟩)
      | _ => .error "AttributeError: parsed log is not a list"

/-- The comparison `e.get("username") == current_user` in the `/gallery`
route: an absent key and a JSON `null` both read back as Python `None`;
`current_user` is `None` or a string. -/
def username_matches (e : JVal) (current_user : Option String) : Bool :=
  match jget e "username", current_user with
  | Option.none, Option.none => true
  | some .null, Option.none => true
  | some (.str s), some t => s == t
  | _, _ => false

/-- The sort key `e.get("created_at", "")` of the `/gallery` route.  Defined
here for every value, but faithful to Python only when the stored value is a
string or absent (`sorted` raises `TypeError` on mixed-type keys); the
gallery theorem carries that restriction as a hypothesis. -/
def created_at_key (e : JVal) : String :=
  match jget e "created_at" with
  | some (.str s) => s
  | _ => ""

/-- `True` when the entry is a JSON object, as `e.get` requires. -/
def is_obj : JVal → Bool
  | .obj _ => true
  | _ => false

/-- `True` when the entry's `created_at` is a string or absent. -/
def created_at_ok (e : JVal) : Bool :=
  match jget e "created_at" with
  | Option.none => true
  | some (.str _) => true
  | _ => false

/-- The filter `[e for e in entries if e.get("username") == current_user]`
of the `/gallery` route. -/
def gallery_user_entries (entries : List JVal) (current_user : Option String) :
    List JVal :=
  entries.filter (fun e => username_matches e current_user)

/-- `sorted(user_entries, key=lambda e: e.get("created_at", ""), reverse=True)`
of the `/gallery` route: a stable sort placing larger keys first. -/
def gallery_sorted (entries : List JVal) (current_user : Option String) :
    List JVal :=
  (gallery_user_entries entries current_user).insertionSort
    (fun a b => created_at_key b ≤ created_at_key a)

/-- `compute_badges_for_user(user_entries)` from `src/app.py`. -/
def compute_badges_for_user (user_entries : List JVal) : List String :=
  let count := user_entries.length
  let badges : List String := []
  let badges := if count ≥ 1 then badges ++ ["Forest starter"] else badges
  let badges := if count ≥ 3 then badges ++ ["Consistent carer"] else badges
  let badges := if count ≥ 5 then badges ++ ["Storyteller"] else badges
  badges

/-- A catalog record with a duplicated fruit-tree name (used to probe the
deduplication behaviour of `get_recommendations`). -/
def dupSoilData : SoilData :=
  ⟨some ["Mango", "Mango"], Option.none, Option.none, Option.none, Option.none⟩

/-- A one-entry catalog holding `dupSoilData`. -/
def dupCatalog : Catalog := [("Gujarat", [("clayey", dupSoilData)])]

/-- A duplicate-free catalog record exercising fruit, oxygen and native lists. -/
def mixedSoilData : SoilData :=
  ⟨some ["Mango"], some ["Neem", "Mango"], some ["Banyan"], some 450, some 20⟩

/-- A one-entry catalog holding `mixedSoilData`. -/
def mixedCatalog : Catalog := [("Gujarat", [("clayey", mixedSoilData)])]

/-- A record whose fruit and oxygen categories yield nothing but whose
native-tree list is populated. -/
def nativeSoilData : SoilData :=
  ⟨Option.none, some [], some ["Banyan", "Peepal"], Option.none, Option.none⟩

/-- A one-entry catalog holding `nativeSoilData`. -/
def nativeCatalog : Catalog := [("Rajasthan", [("sandy", nativeSoilData)])]

/-- Three concrete ledger entries for the gallery theorems: two by "asha"
(out of timestamp order), one by "ravi". -/
def galleryEntries : List JVal :=
  [.obj [("username", .str "asha"), ("created_at", .str "20240101000000")],
   .obj [("username", .str "ravi"), ("created_at", .str "20240201000000")],
   .obj [("username", .str "asha"), ("created_at", .str "20240301000000")]]

/- ----------------- Basic lemmas about the numeric helpers ----------------- -/

theorem pyInt_of_nonneg {q : ℚ} (h : 0 ≤ q) : pyInt q = ⌊q⌋ := by
  simp [pyInt, h]

theorem pyInt_nonneg {q : ℚ} (h : 0 ≤ q) : 0 ≤ pyInt q := by
  rw [pyInt_of_nonneg h]
  exact Int.floor_nonneg.mpr h

theorem estimate_tree_count_nonneg (a : AreaInput) : 0 ≤ estimate_tree_count a := by
  cases h : pyFloat a with
  | none => simp [estimate_tree_count, h]
  | some q =>
    by_cases hq : q ≤ 0
    · simp [estimate_tree_count, h, hq]
    · simp only [estimate_tree_count, h, hq, if_false]
      push_neg at hq
      exact pyInt_nonneg (by positivity)

theorem estimate_traditional_tree_count_nonneg (a : AreaInput) :
    0 ≤ estimate_traditional_tree_count a := by
  cases h : pyFloat a with
  | none => simp [estimate_traditional_tree_count, h]
  | some q =>
    by_cases hq : q ≤ 0
    · simp [estimate_traditional_tree_count, h, hq]
    · simp only [estimate_traditional_tree_count, h, hq, if_false]
      push_neg at hq
      exact pyInt_nonneg (by positivity)

theorem recommend_cost_pos {db : Catalog} (hdb : db.WF) (region soil : String)
    (wants_fruit : Bool) :
    0 < (get_recommendations db region soil wants_fruit).cost_per_tree := by
  cases h : lookupSoil db region soil with
  | none => simp [get_recommendations, h]
  | some data =>
    cases hc : data.cost_per_tree with
    | none => simp [get_recommendations, h, hc]
    | some c =>
      have := (hdb region soil data h).1 c hc
      simpa [get_recommendations, h, hc] using this

theorem recommend_maturity_pos {db : Catalog} (hdb : db.WF) (region soil : String)
    (wants_fruit : Bool) :
    0 < (get_recommendations db region soil wants_fruit).maturity_months := by
  cases h : lookupSoil db region soil with
  | none => simp [get_recommendations, h]
  | some data =>
    cases hm : data.maturity_months with
    | none => simp [get_recommendations, h, hm]
    | some m =>
      have := (hdb region soil data h).2 m hm
      simpa [get_recommendations, h, hm] using this

/-- The divide-by-zero guard pattern of the `/assess` handler, rephrased from
`0 < d` to `d = 0` as the spec states it; valid whenever `d` cannot be
negative. -/
theorem guard_eq_zero_test {R : Type} [LinearOrder R] [Zero R] {d : R} (x : ℚ)
    (hd : 0 ≤ d) : (if d > 0 then x else 0) = if d = 0 then 0 else x := by
  rcases hd.lt_or_eq with h | h
  · rw [if_pos h, if_neg h.ne']
  · rw [← h]
    simp

theorem compute_impact_total_cost_nonneg (tree_count : ℤ) (cost_per_tree : ℚ)
    (hc : 0 ≤ cost_per_tree) : 0 ≤ (compute_impact tree_count cost_per_tree).total_cost := by
  by_cases h : tree_count ≤ 0
  · simp [compute_impact, h]
  · push_neg at h
    simp only [compute_impact, not_le.mpr h, if_false]
    have : (0:ℚ) ≤ (tree_count : ℚ) := by exact_mod_cast h.le
    exact mul_nonneg this hc

/- ----------------- Claim theorems ----------------- -/

/-- C2: for every `(region, soil)` pair absent from the catalog (region
missing, or soil missing under that region) and every `wants_fruit`,
`get_recommendations` returns exactly `plants = []`, `cost_per_tree = 500`,
`maturity_months = 24`, and (being a total function) never raises. -/
theorem recommend_lookup_miss (db : Catalog) (region soil : String) (wants_fruit : Bool)
    (h : lookupSoil db region soil = Option.none) :
    get_recommendations db region soil wants_fruit =
      ⟨[], 500, 24⟩ := by
  simp [get_recommendations, h]

theorem recommend_lookup_miss_witness :
    lookupSoil mixedCatalog "Gujarat" "peaty" = Option.none ∧
    get_recommendations mixedCatalog "Gujarat" "peaty" true = ⟨[], 500, 24⟩ :=
  ⟨rfl, recommend_lookup_miss mixedCatalog "Gujarat" "peaty" true rfl⟩

/-- C5: for every `area` input, if `float(area)` fails (missing value or
non-numeric string) or yields a value ≤ 0, both estimators return 0 (and,
being total functions, never raise); if it yields `q > 0`,
`estimate_tree_count` returns `⌊q * 4⌋` and `estimate_traditional_tree_count`
returns `⌊q * 1.5⌋`, as integers. -/
theorem estimate_counts_spec (area_sqm : AreaInput) :
    (pyFloat area_sqm = Option.none →
      estimate_tree_count area_sqm = 0 ∧ estimate_traditional_tree_count area_sqm = 0) ∧
    (∀ q, pyFloat area_sqm = some q → q ≤ 0 →
      estimate_tree_count area_sqm = 0 ∧ estimate_traditional_tree_count area_sqm = 0) ∧
    (∀ q, pyFloat area_sqm = some q → 0 < q →
      estimate_tree_count area_sqm = ⌊q * 4⌋ ∧
      estimate_traditional_tree_count area_sqm = ⌊q * (3/2)⌋) := by
  refine ⟨?_, ?_, ?_⟩
  · intro h
    simp [estimate_tree_count, estimate_traditional_tree_count, h]
  · intro q h hq
    simp [estimate_tree_count, estimate_traditional_tree_count, h, hq]
  · intro q h hq
    have h4 : (0:ℚ) ≤ q * 4 := by positivity
    have h32 : (0:ℚ) ≤ q * (3/2) := by positivity
    simp [estimate_tree_count, estimate_traditional_tree_count, h, not_le.mpr hq,
      pyInt_of_nonneg h4, pyInt_of_nonneg h32]

theorem estimate_counts_spec_witness :
    (0:ℚ) < 25 ∧
    estimate_tree_count (.num 25) = 100 ∧
    estimate_traditional_tree_count (.num 25) = 37 ∧
    pyFloat (.str "abc") = Option.none ∧
    estimate_tree_count (.str "abc") = 0 ∧
    estimate_tree_count (.num (-5)) = 0 := by
  have hpos := (estimate_counts_spec (.num 25)).2.2 25 rfl (by norm_num)
  have habc := (estimate_counts_spec (.str "abc")).1 (by decide)
  have hneg := (estimate_counts_spec (.num (-5))).2.1 (-5) rfl (by norm_num)
  refine ⟨by norm_num, ?_, ?_, by decide, habc.1, hneg.1⟩
  · rw [hpos.1]; norm_num
  · rw [hpos.2]; norm_num

/-- C9: `compute_badges_for_user` is a pure function of the entry count,
monotonic in the count, returning `[]` below 1 entry, exactly the first badge
for 1–2 entries, exactly the first two badges for 3–4 entries, and all three
badges for 5 or more, always in the fixed order
`["Forest starter", "Consistent carer", "Storyteller"]` (the code's labels
for the spec's FirstSubmission / Consistent / Storyteller). -/
theorem badges_spec (l : List JVal) :
    (l.length = 0 → compute_badges_for_user l = []) ∧
    (1 ≤ l.length → l.length < 3 → compute_badges_for_user l = ["Forest starter"]) ∧
    (3 ≤ l.length → l.length < 5 →
      compute_badges_for_user l = ["Forest starter", "Consistent carer"]) ∧
    (5 ≤ l.length →
      compute_badges_for_user l = ["Forest starter", "Consistent carer", "Storyteller"]) ∧
    (∀ l' : List JVal, l.length ≤ l'.length →
      ∀ b, b ∈ compute_badges_for_user l → b ∈ compute_badges_for_user l') := by
  refine ⟨?_, ?_, ?_, ?_, ?_⟩
  · intro h
    simp only [compute_badges_for_user]
    split_ifs <;> first | rfl | omega
  · intro h1 h2
    simp only [compute_badges_for_user]
    split_ifs <;> first | rfl | omega
  · intro h1 h2
    simp only [compute_badges_for_user]
    split_ifs <;> first | rfl | omega
  · intro h1
    simp only [compute_badges_for_user]
    split_ifs <;> first | rfl | omega
  · intro l' hle b hb
    simp only [compute_badges_for_user] at hb ⊢
    split_ifs at hb ⊢ <;>
      first
        | omega
        | (simp only [List.nil_append, List.mem_append, List.mem_singleton,
            List.mem_cons, List.not_mem_nil] at hb ⊢ <;> tauto)

theorem badges_spec_witness :
    (3:ℕ) ≤ ([.null, .null, .null] : List JVal).length ∧
    ([.null, .null, .null] : List JVal).length < 5 ∧
    compute_badges_for_user [.null, .null, .null] =
      ["Forest starter", "Consistent carer"] ∧
    compute_badges_for_user [] = [] ∧
    compute_badges_for_user [.null, .null, .null, .null, .null] =
      ["Forest starter", "Consistent carer", "Storyteller"] :=
  ⟨by norm_num, by norm_num,
    (badges_spec [.null, .null, .null]).2.2.1 (by norm_num) (by norm_num),
    (badges_spec []).1 rfl,
    (badges_spec [.null, .null, .null, .null, .null]).2.2.2.1 (by norm_num)⟩

/-- C1: under the spec's catalog invariant (positive cost and maturity), for
every input each comparison ratio of the `/assess` handler is exactly 0 when
its denominator (conventional tree count, conventional total cost,
conventional maturity months respectively) is 0, and otherwise equals the
corresponding quotient rounded to one decimal place; the computation is a
total function on exact rationals, so it never raises and never produces
infinity or NaN. -/
theorem assess_ratios_guarded (db : Catalog) (region soil : String)
    (wants_fruit : Bool) (area_sqm : AreaInput) (hdb : Catalog.WF db) :
    ((assess db region soil wants_fruit area_sqm).comparison.trees_ratio =
      if (assess db region soil wants_fruit area_sqm).traditional_tree_count = 0 then 0
      else pyRound1 (((assess db region soil wants_fruit area_sqm).tree_count : ℚ) /
        ((assess db region soil wants_fruit area_sqm).traditional_tree_count : ℚ))) ∧
    ((assess db region soil wants_fruit area_sqm).comparison.cost_ratio =
      if (assess db region soil wants_fruit area_sqm).traditional_impact.total_cost = 0
      then 0
      else pyRound1 ((assess db region soil wants_fruit area_sqm).impact.total_cost /
        (assess db region soil wants_fruit area_sqm).traditional_impact.total_cost)) ∧
    ((assess db region soil wants_fruit area_sqm).comparison.speed_ratio =
      if (assess db region soil wants_fruit area_sqm).traditional_maturity_months = 0
      then 0
      else pyRound1
        (((assess db region soil wants_fruit area_sqm).traditional_maturity_months : ℚ) /
          (assess db region soil wants_fruit area_sqm).recommendation.maturity_months)) := by
  have hcost := recommend_cost_pos hdb region soil wants_fruit
  have hmat := recommend_maturity_pos hdb region soil wants_fruit
  have httc := estimate_traditional_tree_count_nonneg area_sqm
  have htcost : (0:ℚ) ≤
      (pyInt ((get_recommendations db region soil wants_fruit).cost_per_tree * (17/20)) : ℚ) := by
    exact_mod_cast pyInt_nonneg (by positivity)
  have htotal := compute_impact_total_cost_nonneg
    (estimate_traditional_tree_count area_sqm)
    ((pyInt ((get_recommendations db region soil wants_fruit).cost_per_tree * (17/20)) : ℤ) : ℚ)
    htcost
  have hmat2 : (0:ℤ) ≤ pyInt ((get_recommendations db region soil wants_fruit).maturity_months * 2) :=
    pyInt_nonneg (by positivity)
  refine ⟨?_, ?_, ?_⟩
  · simp only [assess]
    exact guard_eq_zero_test _ httc
  · simp only [assess]
    exact guard_eq_zero_test _ htotal
  · simp only [assess]
    exact guard_eq_zero_test _ hmat2

theorem assess_ratios_guarded_witness :
    Catalog.WF ([] : Catalog) ∧
    (assess [] "Gujarat" "clayey" true (.num 10)).comparison.trees_ratio = 27/10 ∧
    (assess [] "Gujarat" "clayey" true (.num 10)).comparison.cost_ratio = 31/10 ∧
    (assess [] "Gujarat" "clayey" true (.num 10)).comparison.speed_ratio = 2 := by
  have hwf : Catalog.WF ([] : Catalog) := by
    intro region soil data h
    simp [lookupSoil] at h
  obtain ⟨h1, h2, h3⟩ := assess_ratios_guarded [] "Gujarat" "clayey" true (.num 10) hwf
  refine ⟨hwf, ?_, ?_, ?_⟩
  · rw [h1]
    norm_num [assess, get_recommendations, lookupSoil, estimate_tree_count,
      estimate_traditional_tree_count, pyFloat, pyInt, compute_impact, pyRound1, pyRoundEven]
  · rw [h2]
    norm_num [assess, get_recommendations, lookupSoil, estimate_tree_count,
      estimate_traditional_tree_count, pyFloat, pyInt, compute_impact, pyRound1, pyRoundEven]
  · rw [h3]
    norm_num [assess, get_recommendations, lookupSoil, estimate_tree_count,
      estimate_traditional_tree_count, pyFloat, pyInt, compute_impact, pyRound1, pyRoundEven]

/-- C3 counterexample: with no precondition on the catalog, the no-duplicates
claim fails — a catalog record whose fruit-tree list repeats "Mango" makes
`get_recommendations` return a list containing "Mango" twice. -/
theorem recommend_nodup_cex :
    ¬ (get_recommendations dupCatalog "Gujarat" "clayey" true).plants.Nodup := by
  decide

theorem addUnique_nodup : ∀ (ox acc : List String), acc.Nodup → (addUnique acc ox).Nodup := by
  intro ox
  induction ox with
  | nil => intro acc h; exact h
  | cons p ox ih =>
    intro acc h
    rw [addUnique, List.foldl_cons]
    by_cases hp : p ∈ acc
    · rw [if_pos hp]
      exact ih acc h
    · rw [if_neg hp]
      refine ih _ ?_
      rw [← List.concat_eq_append]
      exact h.concat hp

theorem fruit_oxygen_selection_nodup (data : SoilData) (wants_fruit : Bool)
    (hf : (data.fruit_trees.getD []).Nodup) :
    (fruit_oxygen_selection data wants_fruit).Nodup := by
  rw [fruit_oxygen_selection]
  have hbase : (if wants_fruit && data.fruit_trees.isSome
      then ([] : List String) ++ data.fruit_trees.getD [] else []).Nodup := by
    by_cases h : wants_fruit && data.fruit_trees.isSome
    · simpa [h] using hf
    · simp [h]
  cases hox : data.oxygen_trees with
  | none => simpa [hox] using hbase
  | some ox =>
    simp only [hox]
    exact addUnique_nodup ox _ hbase

/-- C3 amended: the selection returned by `get_recommendations` has no
duplicate plant names, provided the catalog record's own fruit-tree and
native-tree lists are duplicate-free (the oxygen step deduplicates, but the
fruit-extension step and the native fallback copy their lists verbatim). -/
theorem recommend_nodup_of_catalog_nodup (db : Catalog) (region soil : String)
    (wants_fruit : Bool)
    (h : ∀ data, lookupSoil db region soil = some data →
      (data.fruit_trees.getD []).Nodup ∧ (data.native_trees.getD []).Nodup) :
    (get_recommendations db region soil wants_fruit).plants.Nodup := by
  cases hl : lookupSoil db region soil with
  | none => simp [get_recommendations, hl]
  | some data =>
    obtain ⟨hf, hn⟩ := h data hl
    have hsel := fruit_oxygen_selection_nodup data wants_fruit hf
    by_cases he : (fruit_oxygen_selection data wants_fruit).isEmpty
        && data.native_trees.isSome
    · simpa [get_recommendations, hl, he] using hn
    · simpa [get_recommendations, hl, he] using hsel

theorem recommend_nodup_of_catalog_nodup_witness :
    (∀ data, lookupSoil mixedCatalog "Gujarat" "clayey" = some data →
      (data.fruit_trees.getD []).Nodup ∧ (data.native_trees.getD []).Nodup) ∧
    (get_recommendations mixedCatalog "Gujarat" "clayey" true).plants.Nodup ∧
    (get_recommendations mixedCatalog "Gujarat" "clayey" true).plants =
      ["Mango", "Neem"] := by
  have hcat : ∀ data, lookupSoil mixedCatalog "Gujarat" "clayey" = some data →
      (data.fruit_trees.getD []).Nodup ∧ (data.native_trees.getD []).Nodup := by
    intro data hd
    have hd' : some mixedSoilData = some data := hd
    cases Option.some.inj hd'
    exact ⟨by decide, by decide⟩
  exact ⟨hcat,
    recommend_nodup_of_catalog_nodup mixedCatalog "Gujarat" "clayey" true hcat,
    by decide⟩

/-- C4: the native-tree list is a pure fallback — when the fruit step (taken
only if `wants_fruit`) plus the oxygen step yield an empty list and a native
list exists, the result is that native list verbatim; when they yield a
non-empty list, the result is exactly that list, so native trees are never
merged in even if a native list exists alongside. -/
theorem recommend_native_pure_fallback (db : Catalog) (region soil : String)
    (wants_fruit : Bool) (data : SoilData)
    (h : lookupSoil db region soil = some data) :
    (fruit_oxygen_selection data wants_fruit = [] → data.native_trees.isSome = true →
      (get_recommendations db region soil wants_fruit).plants = data.native_trees.getD []) ∧
    (fruit_oxygen_selection data wants_fruit ≠ [] →
      (get_recommendations db region soil wants_fruit).plants =
        fruit_oxygen_selection data wants_fruit) := by
  constructor
  · intro he hn
    simp [get_recommendations, h, he, hn]
  · intro hne
    have he : (fruit_oxygen_selection data wants_fruit).isEmpty = false := by
      simpa [List.isEmpty_iff] using hne
    simp [get_recommendations, h, he]

theorem recommend_native_pure_fallback_witness :
    lookupSoil nativeCatalog "Rajasthan" "sandy" = some nativeSoilData ∧
    fruit_oxygen_selection nativeSoilData true = [] ∧
    nativeSoilData.native_trees.isSome = true ∧
    (get_recommendations nativeCatalog "Rajasthan" "sandy" true).plants =
      nativeSoilData.native_trees.getD [] ∧
    fruit_oxygen_selection mixedSoilData true ≠ [] ∧
    (get_recommendations mixedCatalog "Gujarat" "clayey" true).plants =
      fruit_oxygen_selection mixedSoilData true := by
  refine ⟨rfl, rfl, rfl, ?_, by decide, ?_⟩
  · exact (recommend_native_pure_fallback nativeCatalog "Rajasthan" "sandy" true
      nativeSoilData rfl).1 rfl rfl
  · exact (recommend_native_pure_fallback mixedCatalog "Gujarat" "clayey" true
      mixedSoilData rfl).2 (by decide)

/-- C6: a submission whose photo part is absent, or whose filename lacks an
allowed extension (png/jpg/jpeg), makes `save_progress_entry` return the
"not saved" outcome (`None`) without raising, and the persisted state (log
file and upload folder) is returned unchanged. -/
theorem save_progress_entry_rejects (region soil area_sqm note : JVal)
    (file_storage : Option String) (timestamp : String) (username : Option String)
    (st : LedgerState)
    (h : file_storage = Option.none ∨
      ∃ fn, file_storage = some fn ∧ allowed_file fn = false) :
    save_progress_entry region soil area_sqm note file_storage timestamp username st =
      .ok (Option.none, st) := by
  rcases h with h | ⟨fn, hfs, hfn⟩
  · subst h; rfl
  · subst hfs
    simp [save_progress_entry, hfn]

theorem save_progress_entry_rejects_witness :
    allowed_file "notes.txt" = false ∧
    save_progress_entry .null .null .null .null (some "notes.txt") "20250101000000"
      Option.none ⟨.missing, []⟩ = .ok (Option.none, ⟨.missing, []⟩) ∧
    save_progress_entry .null .null .null .null Option.none "20250101000000"
      Option.none ⟨.missing, []⟩ = .ok (Option.none, ⟨.missing, []⟩) := by
  have hfn : allowed_file "notes.txt" = false := by decide
  exact ⟨hfn,
    save_progress_entry_rejects .null .null .null .null (some "notes.txt")
      "20250101000000" Option.none ⟨.missing, []⟩ (Or.inr ⟨"notes.txt", rfl, hfn⟩),
    save_progress_entry_rejects .null .null .null .null Option.none
      "20250101000000" Option.none ⟨.missing, []⟩ (Or.inl rfl)⟩

/-- C7 counterexample: `load_progress_log` does not fall back to an empty list
when the persisted document parses to a non-list — a stored JSON object is
returned as-is. -/
theorem load_progress_log_nonlist_cex :
    load_progress_log (.json (.obj [])) ≠ .arr [] := by
  intro h
  injection h

/-- C7 amended: both readers return the empty list when the document is
missing or malformed (which covers the empty file); `load_progress_entries`
additionally falls back to the empty list when the parsed document is not a
list, while `load_progress_log` returns a successfully parsed document
verbatim, list or not.  Both are total functions, so no read raises. -/
theorem load_readers_spec (raw : String) (v : JVal) :
    load_progress_log .missing = .arr [] ∧
    load_progress_log (.malformed raw) = .arr [] ∧
    load_progress_log (.json v) = v ∧
    load_progress_entries .missing = [] ∧
    load_progress_entries (.malformed raw) = [] ∧
    (∀ items, v = .arr items → load_progress_entries (.json v) = items) ∧
    ((∀ items, v ≠ .arr items) → load_progress_entries (.json v) = []) := by
  refine ⟨rfl, rfl, rfl, rfl, rfl, ?_, ?_⟩
  · intro items h
    subst h
    rfl
  · intro h
    cases v with
    | arr items => exact absurd rfl (h items)
    | null => rfl
    | bool b => rfl
    | num q => rfl
    | str s => rfl
    | obj fields => rfl

theorem load_readers_spec_witness :
    (∀ items, JVal.obj [] ≠ JVal.arr items) ∧
    load_progress_entries (.json (.obj [])) = [] ∧
    load_progress_entries (.missing) = [] ∧
    load_progress_log (.malformed "not valid json") = .arr [] := by
  have hne : ∀ items, JVal.obj [] ≠ JVal.arr items := by
    intro items h
    injection h
  obtain ⟨ha, _, _, hd, _, _, hg⟩ := load_readers_spec "not valid json" (.obj [])
  exact ⟨hne, hg hne, hd, ha⟩

/-- C8: for every ledger state whose entries are objects with string (or
absent) `created_at` fields — the regime in which the embedding is faithful
to Python's `sorted` and `dict.get` — and every session user (including the
absent one), the gallery view is a permutation of exactly the entries whose
stored username equals the session user (absent matching absent), membership
is exact, and the result is sorted by `created_at` descending. -/
theorem gallery_spec (entries : List JVal) (current_user : Option String)
    (_hw : ∀ e ∈ entries, is_obj e = true ∧ created_at_ok e = true) :
    List.Perm (gallery_sorted entries current_user)
      (entries.filter (fun e => username_matches e current_user)) ∧
    (∀ e, e ∈ gallery_sorted entries current_user ↔
      e ∈ entries ∧ username_matches e current_user = true) ∧
    List.Sorted (fun a b => created_at_key b ≤ created_at_key a)
      (gallery_sorted entries current_user) := by
  have hperm : List.Perm (gallery_sorted entries current_user)
      (entries.filter (fun e => username_matches e current_user)) :=
    List.perm_insertionSort _ (gallery_user_entries entries current_user)
  refine ⟨hperm, ?_, ?_⟩
  · intro e
    rw [hperm.mem_iff, List.mem_filter]
  · haveI : IsTotal JVal (fun a b => created_at_key b ≤ created_at_key a) :=
      ⟨fun a b => le_total _ _⟩
    haveI : IsTrans JVal (fun a b => created_at_key b ≤ created_at_key a) :=
      ⟨fun a b c h1 h2 => le_trans h2 h1⟩
    exact List.sorted_insertionSort _ _

theorem gallery_spec_witness :
    (∀ e ∈ galleryEntries, is_obj e = true ∧ created_at_ok e = true) ∧
    (∀ e, e ∈ gallery_sorted galleryEntries (some "asha") ↔
      e ∈ galleryEntries ∧ username_matches e (some "asha") = true) ∧
    List.Sorted (fun a b => created_at_key b ≤ created_at_key a)
      (gallery_sorted galleryEntries (some "asha")) := by
  have hw : ∀ e ∈ galleryEntries, is_obj e = true ∧ created_at_ok e = true := by
    decide
  obtain ⟨_, hmem, hsort⟩ := gallery_spec galleryEntries (some "asha") hw
  exact ⟨hw, hmem, hsort⟩

/-- C10 (implicit): whenever the recommendation's `maturity_months` is a
positive integer — as for every spec-conforming catalog entry and for the
lookup-miss fallback of 24 — the computed `speed_ratio` is exactly 2,
independent of region, soil, fruit preference and area: the conventional
maturity is defined as twice the recommended maturity, so the zero-denominator
branch is not taken and the rounded quotient is constant. -/
theorem speed_ratio_constant (db : Catalog) (region soil : String)
    (wants_fruit : Bool) (area_sqm : AreaInput)
    (h : ∃ k : ℤ, 0 < k ∧
      (get_recommendations db region soil wants_fruit).maturity_months = (k : ℚ)) :
    (assess db region soil wants_fruit area_sqm).comparison.speed_ratio = 2 := by
  obtain ⟨k, hk, hm⟩ := h
  simp only [assess]
  rw [hm]
  have hcast : ((k:ℚ) * 2) = ((2 * k : ℤ) : ℚ) := by push_cast; ring
  have hfloor : pyInt ((k:ℚ) * 2) = 2 * k := by
    rw [hcast, pyInt_of_nonneg (by exact_mod_cast (by omega : (0:ℤ) ≤ 2 * k))]
    exact Int.floor_intCast _
  rw [hfloor, if_pos (by omega : (0:ℤ) < 2 * k)]
  have hk0 : (k:ℚ) ≠ 0 := by exact_mod_cast hk.ne'
  have hq : ((2 * k : ℤ) : ℚ) / (k:ℚ) = 2 := by
    push_cast
    field_simp
  rw [hq]
  norm_num [pyRound1, pyRoundEven]

theorem speed_ratio_constant_witness :
    ((0:ℤ) < 24 ∧ (get_recommendations [] "Kerala" "loamy" false).maturity_months =
      ((24:ℤ) : ℚ)) ∧
    (assess [] "Kerala" "loamy" false (.num 10)).comparison.speed_ratio = 2 :=
  ⟨⟨by norm_num, by norm_num [get_recommendations, lookupSoil]⟩,
    speed_ratio_constant [] "Kerala" "loamy" false (.num 10)
      ⟨24, by norm_num, by norm_num [get_recommendations, lookupSoil]⟩⟩

end Miyavkify
